import Mathlib

/-!
Verification development for the DisplayWriter receiver
(`displaywriter_receiver.py`): a shallow embedding of the key calibration
store, the press/release event handling, the function-key shadow resolver
and the serial line parsing, together with theorems about them.

Python dicts are embedded as association lists that preserve insertion
order (as Python dicts do); mutation is explicit state passing.  Python
exceptions (`ValueError`, `KeyError`) are embedded as `Option`/`Except`
failure values.
-/

namespace Displaywriter

/-- Values stored in a calibration record (JSON scalars used by the
program: strings, integers, booleans). -/
inductive Value where
  | str (s : String)
  | int (n : Int)
  | bool (b : Bool)
deriving DecidableEq, Repr

/-- A calibration record: a Python dict from field names to values,
embedded as an insertion-ordered association list. -/
abbrev KeyCfg : Type := List (String × Value)

/-- The mutable module state: the `KEYS` dict mapping key index to its
calibration record.  `FUNCTION_MODIFIER_KEYS` in the source holds aliases
of the very same record objects (for the entries whose `type` is
`function_key_modifier`), so it is represented here as the sub-map of
modifier-typed entries rather than as a second copy. -/
abbrev State : Type := List (Int × KeyCfg)

/-- Python `d[k]` / `k in d` on a calibration record: first (only)
binding of `k`, if any. -/
def dictGet (d : KeyCfg) (k : String) : Option Value :=
  (d.find? (fun p => p.1 == k)).map (fun p => p.2)

/-- Python `d[k] = v` on a calibration record: overwrite in place if the
key is present (keeping its position), else append. -/
def dictSet (d : KeyCfg) (k : String) (v : Value) : KeyCfg :=
  if d.any (fun p => p.1 == k) then
    d.map (fun p => if p.1 == k then (k, v) else p)
  else
    d ++ [(k, v)]

/-- Python `KEYS[idx]` / `idx in KEYS`. -/
def keysGet (st : State) (idx : Int) : Option KeyCfg :=
  (st.find? (fun p => p.1 == idx)).map (fun p => p.2)

/-- Python `KEYS[idx] = cfg`: overwrite in place if present, else append. -/
def keysSet (st : State) (idx : Int) (cfg : KeyCfg) : State :=
  if st.any (fun p => p.1 == idx) then
    st.map (fun p => if p.1 == idx then (idx, cfg) else p)
  else
    st ++ [(idx, cfg)]

/-- Python truthiness of an optional dict value, with an absent key
counting as false (used where the source guards with `k in d and d[k]`). -/
def pyTruthy : Option Value → Bool
  | none => false
  | some (Value.str s) => !s.isEmpty
  | some (Value.int n) => n != 0
  | some (Value.bool b) => b

/-- ASCII whitespace as stripped by Python `bytes.strip()` and accepted
around `int()` literals. -/
def isPySpace (c : Char) : Bool :=
  c == ' ' || c == '\t' || c == '\n' || c == '\r' || c == '\x0b' || c == '\x0c'

/-- Python `s.strip()` on the characters of a line. -/
def pyStrip (l : List Char) : List Char :=
  ((l.dropWhile isPySpace).reverse.dropWhile isPySpace).reverse

/-- Python `s.split(b",")`: split on every comma, keeping empty fields;
the result is always nonempty (the empty input gives one empty field). -/
def splitComma : List Char → List (List Char)
  | [] => [[]]
  | c :: cs =>
    match splitComma cs with
    | [] => [[]]
    | f :: rest => if c == ',' then [] :: f :: rest else (c :: f) :: rest

/-- Decimal value of a digit list (most significant first). -/
def decDigitsVal (l : List Char) : Nat :=
  l.foldl (fun a c => 10 * a + (c.toNat - 48)) 0

/-- Python `int(s)`: optional surrounding whitespace, optional sign, then
a nonempty run of decimal digits; anything else raises `ValueError`
(embedded as `none`).  Digit-group underscores and non-ASCII digits,
which CPython also accepts, are not modelled — no input in this program
uses them. -/
def pyInt (s : List Char) : Option Int :=
  let t := pyStrip s
  let core := match t with
    | c :: rest => if c == '-' || c == '+' then rest else t
    | [] => t
  if core.isEmpty || !core.all Char.isDigit then
    none
  else
    match t with
    | c :: _ =>
      if c == '-' then some (-(decDigitsVal core : Int)) else some ((decDigitsVal core : Int))
    | [] => none

/-- `is_function_key_modifier`, phrased on the record:
`"type" in cfg and cfg["type"] == "function_key_modifier"`. -/
def isModCfg (cfg : KeyCfg) : Bool :=
  dictGet cfg ("type") == some (Value.str ("function_key_modifier"))

/-- `is_function_key_modifier(idx)`.  The source reads `KEYS[idx]`
unconditionally (callers guard membership); an absent index is embedded
as `false`. -/
def isFunctionKeyModifier (st : State) (idx : Int) : Bool :=
  match keysGet st idx with
  | some cfg => isModCfg cfg
  | none => false

/-- `shadows_function_key(idx)`: `"shadow_function_key" in KEYS[idx]`. -/
def shadowsFunctionKey (st : State) (idx : Int) : Bool :=
  match keysGet st idx with
  | some cfg => (dictGet cfg ("shadow_function_key")).isSome
  | none => false

/-- `any(FUNCTION_MODIFIER_KEYS[idx]["pressed"] for idx in
FUNCTION_MODIFIER_KEYS)`: some modifier-typed entry has a truthy
`pressed` flag. -/
def anyModifierHeld (st : State) : Bool :=
  st.any (fun p => isModCfg p.2 && pyTruthy (dictGet p.2 ("pressed")))

/-- `should_use_function_key(idx)`. -/
def shouldUseFunctionKey (st : State) (idx : Int) : Bool :=
  shadowsFunctionKey st idx && anyModifierHeld st

/-- `get_key(idx)`: shadow function key when a modifier is held, else the
scancode when configured, else the name.  A missing `name` (and missing
`scancode`) is a `KeyError`, embedded as `none`. -/
def getKey (st : State) (idx : Int) : Option Value :=
  match keysGet st idx with
  | none => none
  | some cfg =>
    if shouldUseFunctionKey st idx then
      dictGet cfg ("shadow_function_key")
    else
      match dictGet cfg ("scancode") with
      | some sc => some sc
      | none => dictGet cfg ("name")

/-- `should_press_and_release(idx)`:
`"press_and_release" in KEYS[idx] and KEYS[idx]["press_and_release"]`. -/
def shouldPressAndRelease (st : State) (idx : Int) : Bool :=
  match keysGet st idx with
  | some cfg => pyTruthy (dictGet cfg ("press_and_release"))
  | none => false

/-- Python `repr` of a value as used in the dry-run f-string traces. -/
def pyReprValue : Value → String
  | Value.str s => "\x27" ++ s ++ "\x27"
  | Value.int n => toString n
  | Value.bool b => if b then "True" else "False"

/-- Python `repr` of a calibration record (an insertion-ordered dict). -/
def pyDictRepr (cfg : KeyCfg) : String :=
  "\x7b" ++ String.intercalate (", ") (cfg.map (fun p => "\x27" ++ p.1 ++ "\x27: " ++ pyReprValue p.2)) ++ "\x7d"

/-- Observable effects of one press/release call: the three OS
key-injection primitives of the `keyboard` collaborator, and the dry-run
stdout trace. -/
inductive Output where
  | osPress (key : Value)
  | osRelease (key : Value)
  | osPressAndRelease (key : Value)
  | trace (msg : String)
deriving DecidableEq, Repr

/-- Whether an output is one of the OS key-injection primitives (as
opposed to a dry-run trace). -/
def Output.isOsAction : Output → Bool
  | Output.osPress _ => true
  | Output.osRelease _ => true
  | Output.osPressAndRelease _ => true
  | Output.trace _ => false

/-- `press_key(idx, dry_run)`: returns the successor state and the
emitted outputs, or `none` for an uncaught exception (a `KeyError` from
`get_key`).  Mirrors the source's order: missing-index guard, dry-run
trace, modifier flag set, key resolution, tap-vs-press choice. -/
def pressKey (st : State) (idx : Int) (dryRun : Bool) : Option (State × List Output) :=
  match keysGet st idx with
  | none => some (st, [])
  | some cfg =>
    if dryRun then
      some (st, [Output.trace (("Pressing: ") ++ pyDictRepr cfg)])
    else if isModCfg cfg then
      some (keysSet st idx (dictSet cfg ("pressed") (Value.bool true)), [])
    else
      match getKey st idx with
      | none => none
      | some key =>
        if shouldPressAndRelease st idx then
          some (st, [Output.osPressAndRelease key])
        else
          some (st, [Output.osPress key])

/-- `release_key(idx, dry_run)`: symmetric to `pressKey`, clearing the
modifier flag and emitting an OS release (or, for `press_and_release`
keys, the same atomic tap primitive). -/
def releaseKey (st : State) (idx : Int) (dryRun : Bool) : Option (State × List Output) :=
  match keysGet st idx with
  | none => some (st, [])
  | some cfg =>
    if dryRun then
      some (st, [Output.trace (("Releasing: ") ++ pyDictRepr cfg)])
    else if isModCfg cfg then
      some (keysSet st idx (dictSet cfg ("pressed") (Value.bool false)), [])
    else
      match getKey st idx with
      | none => none
      | some key =>
        if shouldPressAndRelease st idx then
          some (st, [Output.osPressAndRelease key])
        else
          some (st, [Output.osRelease key])

/-- Number of values sent by the Arduino per scan (`NUM_KEYS`). -/
def NUM_KEYS : Nat := 96

/-- The comma-split fields of one scan-mode line after
`line.strip().split(b",")[:-1]` — note the `[:-1]`, which drops the last
comma-split field. -/
def scanFields (line : String) : List (List Char) :=
  (splitComma (pyStrip line.data)).dropLast

/-- `int()` applied to every field; the first failing field raises
`ValueError`, discarding the whole list. -/
def parseFields : List (List Char) → Option (List Int)
  | [] => some []
  | f :: fs =>
    match pyInt f, parseFields fs with
    | some v, some vs => some (v :: vs)
    | _, _ => none

/-- One iteration of `read_keyscans` on one line: `none` when the line is
discarded (wrong field count, or `int()` raising `ValueError` on some
field), otherwise the parsed voltages. -/
def readScanLine (line : String) : Option (List Int) :=
  if (scanFields line).length != NUM_KEYS then
    none
  else
    parseFields (scanFields line)

/-- The scans yielded by `read_keyscans` for a finite list of input
lines: discarded lines contribute nothing. -/
def keyscansOfLines (lines : List String) : List (List Int) :=
  lines.filterMap readScanLine

/-- Decoding of one event-mode line:
`key, pressed = map(int, line.strip().split(b","))`.  Any field count
other than two raises `ValueError` at the unpacking, as does a
non-integer field at `int()`; both are embedded as `none`. -/
def parseMessage (line : String) : Option (Int × Int) :=
  match splitComma (pyStrip line.data) with
  | [a, b] =>
    match pyInt a, pyInt b with
    | some k, some p => some (k, p)
    | _, _ => none
  | _ => none

/-- One iteration of `read_messages` on one line: a malformed line is
swallowed by the `except ValueError` and leaves everything unchanged;
otherwise the message is dispatched on the truthiness of `pressed`. -/
def processLine (st : State) (dryRun : Bool) (line : String) : Option (State × List Output) :=
  match parseMessage line with
  | none => some (st, [])
  | some (k, p) =>
    if p != 0 then pressKey st k dryRun else releaseKey st k dryRun

/-- The `read_messages` loop over a finite list of input lines,
collecting all outputs; `none` if some line raises an uncaught
exception. -/
def runLines (st : State) (dryRun : Bool) : List String → Option (State × List Output)
  | [] => some (st, [])
  | l :: ls =>
    match processLine st dryRun l with
    | none => none
    | some (st1, out1) =>
      match runLines st1 dryRun ls with
      | none => none
      | some (st2, out2) => some (st2, out1 ++ out2)

/-- One iteration of `load_key_calibration`: `idx = int(field)` (a
non-integer field such as `"global"` raises `ValueError`), then
`KEYS[idx] = cfg`, then, for modifier-typed entries, registration in
`FUNCTION_MODIFIER_KEYS` and `["pressed"] = False` on the shared record. -/
def loadStep (st : State) (item : String × KeyCfg) : Except String State :=
  match pyInt item.1.data with
  | none => Except.error ("ValueError")
  | some idx =>
    let st1 := keysSet st idx item.2
    if isFunctionKeyModifier st1 idx then
      Except.ok (keysSet st1 idx (dictSet item.2 ("pressed") (Value.bool false)))
    else
      Except.ok st1

/-- `load_key_calibration`: fold over the JSON object's items (in file
order) starting from empty `KEYS`. -/
def loadKeyCalibration (items : List (String × KeyCfg)) : Except String State :=
  items.foldlM loadStep []

/-- A press or release transition produced by the debounce filter. -/
inductive KeyTransition where
  | press
  | release
deriving DecidableEq, Repr

/-- Modelled from the spec: the per-key runtime state of the
debounce/confidence filter of spec §4.2.  The filter itself is not
present under `src/` — the final snapshot of the program receives
pre-decoded press/release events from the firmware — so its state and
step function are taken from the spec's words. -/
structure DebounceState where
  isPressed : Bool
  confidence : Int
deriving DecidableEq, Repr

/-- Modelled from the spec: one step of the debounce/confidence filter
(spec §4.2).  Released + not-pressed reading: no-op.  Released + pressed
reading: immediately Pressed, emit press, confidence := max.  Pressed +
pressed reading: increment confidence, capped at max.  Pressed +
not-pressed reading: decrement confidence (floor 0); on reaching 0,
Released and emit release. -/
def debounceStep (maxConfidence : Int) (s : DebounceState) (reading : Bool) :
    DebounceState × List KeyTransition :=
  match s.isPressed, reading with
  | false, false => (s, [])
  | false, true =>
    ({ isPressed := true, confidence := maxConfidence }, [KeyTransition.press])
  | true, true =>
    ({ s with confidence := min (s.confidence + 1) maxConfidence }, [])
  | true, false =>
    let c := max (s.confidence - 1) 0
    if c = 0 then ({ isPressed := false, confidence := c }, [KeyTransition.release])
    else ({ s with confidence := c }, [])

/-- Modelled from the spec: initial per-key runtime state (Released,
zero confidence). -/
def debounceInit : DebounceState :=
  { isPressed := false, confidence := 0 }

/-- Modelled from the spec: the filter state after a finite sequence of
instantaneous electrical readings. -/
def debounceRun (maxConfidence : Int) (readings : List Bool) : DebounceState :=
  readings.foldl (fun s r => (debounceStep maxConfidence s r).1) debounceInit

/-- Sample calibration record: a plain letter key. -/
def cfgA : KeyCfg := [("name", Value.str ("a"))]

/-- Sample calibration record: a key that shadows a function key. -/
def cfgShadow : KeyCfg :=
  [("name", Value.str ("2")), ("shadow_function_key", Value.str ("f2"))]

/-- Sample calibration record: a function-key modifier, flag clear. -/
def cfgMod : KeyCfg :=
  [("name", Value.str ("fn")), ("type", Value.str ("function_key_modifier")),
   ("pressed", Value.bool false)]

/-- Sample calibration record: a function-key modifier, flag set. -/
def cfgModHeld : KeyCfg :=
  [("name", Value.str ("fn")), ("type", Value.str ("function_key_modifier")),
   ("pressed", Value.bool true)]

/-- Sample calibration record: a `press_and_release` (tap) key. -/
def cfgTap : KeyCfg :=
  [("name", Value.str ("esc")), ("press_and_release", Value.bool true)]

/-- Sample loaded state: letter key 0, shadowing key 1, tap key 2,
modifier key 7 with its flag clear. -/
def stW : State :=
  [((0:Int), cfgA), ((1:Int), cfgShadow), ((2:Int), cfgTap), ((7:Int), cfgMod)]

/-- Sample state identical to `stW` except the modifier flag is set. -/
def stHeld : State :=
  [((0:Int), cfgA), ((1:Int), cfgShadow), ((2:Int), cfgTap), ((7:Int), cfgModHeld)]

/-- The characters of a scan line carrying 96 zero readings separated by
95 commas, with no trailing comma. -/
def zeros96 : List Char :=
  (List.replicate 95 ([ '0', ',' ])).flatten ++ [ '0' ]

/-- A scan line that is a comma-separated list of exactly 96 integers. -/
def line96 : String :=
  String.mk zeros96

/-- The same scan line with the trailing comma the firmware sends. -/
def line97 : String :=
  String.mk (zeros96 ++ [ ',' ])

/-- Sample calibration file contents: letter key 0 and modifier key 7
(the modifier entry has no `pressed` field on disk; loading adds it). -/
def itemsW : List (String × KeyCfg) :=
  [(("0"), cfgA),
   (("7"), [("name", Value.str ("fn")), ("type", Value.str ("function_key_modifier"))])]

/-- The state produced by loading `itemsW`. -/
def stLoaded : State :=
  [((0:Int), cfgA), ((7:Int), cfgMod)]

/- ------------------------------------------------------------------ -/
/- Helper lemmas on the association-list operations.                   -/
/- ------------------------------------------------------------------ -/

/-- Looking up the key just written by the write-or-append update. -/
theorem find?_set_self {α β : Type} [BEq α] [LawfulBEq α]
    (l : List (α × β)) (k : α) (v : β) :
    ((if l.any (fun q => q.1 == k) then
        l.map (fun q => if q.1 == k then (k, v) else q)
      else
        l ++ [(k, v)]).find? (fun q => q.1 == k)).map (fun q => q.2) = some v := by
  split
  case isTrue h =>
    induction l with
    | nil => simp at h
    | cons a l ih =>
      by_cases ha : (a.1 == k) = true
      · simp [List.find?_cons_of_pos, ha]
      · have ha' : (a.1 == k) = false := by
          simp only [Bool.not_eq_true] at ha
          exact ha
        have h' : l.any (fun q => q.1 == k) = true := by
          simp [List.any_cons, ha'] at h
          simpa using h
        simpa [ha', List.find?_cons_of_neg] using ih h'
  case isFalse h =>
    have hnone : l.find? (fun q => q.1 == k) = none := by
      apply List.find?_eq_none.mpr
      intro x hx
      intro hxk
      exact h (List.any_eq_true.mpr ⟨x, hx, hxk⟩)
    induction l with
    | nil => simp
    | cons a l ih =>
      have ha : (a.1 == k) = false := by
        by_contra hc
        simp only [Bool.not_eq_false] at hc
        simp [List.find?_cons_of_pos, hc] at hnone
      have hnone' : l.find? (fun q => q.1 == k) = none := by
        simpa [ha, List.find?_cons_of_neg] using hnone
      have h' : ¬ l.any (fun q => q.1 == k) = true := by
        intro hc
        rcases List.any_eq_true.mp hc with ⟨x, hx, hxk⟩
        have := List.find?_eq_none.mp hnone' x hx
        exact this hxk
      simpa [ha, List.find?_cons_of_neg] using ih h' hnone'

/-- Every entry of the write-or-append update is either an untouched
entry with a different key, or the newly written binding. -/
theorem mem_set {α β : Type} [BEq α] [LawfulBEq α]
    (l : List (α × β)) (k : α) (v : β) (p : α × β)
    (hp : p ∈ (if l.any (fun q => q.1 == k) then
        l.map (fun q => if q.1 == k then (k, v) else q)
      else
        l ++ [(k, v)])) :
    (p ∈ l ∧ (p.1 == k) = false) ∨ p = (k, v) := by
  split at hp
  case isTrue h =>
    rcases List.mem_map.mp hp with ⟨q, hq, hqe⟩
    by_cases hqk : (q.1 == k) = true
    · right
      rw [← hqe]
      simp [hqk]
    · left
      have hqk' : (q.1 == k) = false := by
        simp only [Bool.not_eq_true] at hqk
        exact hqk
      have : p = q := by
        rw [← hqe]
        simp [hqk']
      subst this
      exact ⟨hq, hqk'⟩
  case isFalse h =>
    rcases List.mem_append.mp hp with hl | hr
    · left
      refine ⟨hl, ?_⟩
      by_contra hc
      simp only [Bool.not_eq_false] at hc
      exact h (List.any_eq_true.mpr ⟨p, hl, hc⟩)
    · right
      simpa using hr

/-- `dictGet` after `dictSet` at the same field. -/
theorem dictGet_dictSet_self (d : KeyCfg) (k : String) (v : Value) :
    dictGet (dictSet d k v) k = some v := by
  unfold dictGet dictSet
  exact find?_set_self d k v

/-- `keysGet` after `keysSet` at the same index. -/
theorem keysGet_keysSet_self (st : State) (idx : Int) (cfg : KeyCfg) :
    keysGet (keysSet st idx cfg) idx = some cfg := by
  unfold keysGet keysSet
  exact find?_set_self st idx cfg

/-- Entries of `keysSet st idx cfg`. -/
theorem mem_keysSet (st : State) (idx : Int) (cfg : KeyCfg) (p : Int × KeyCfg)
    (hp : p ∈ keysSet st idx cfg) :
    (p ∈ st ∧ (p.1 == idx) = false) ∨ p = (idx, cfg) := by
  unfold keysSet at hp
  exact mem_set st idx cfg p hp

/-- A line whose fields do not decode to exactly two integers is never
decoded as a message. -/
theorem parseMessage_eq_none (line : String)
    (h : (splitComma (pyStrip line.data)).length ≠ 2
       ∨ ∃ f ∈ splitComma (pyStrip line.data), pyInt f = none) :
    parseMessage line = none := by
  cases hpm : parseMessage line with
  | none => rfl
  | some kp =>
    exfalso
    unfold parseMessage at hpm
    split at hpm
    case h_1 a b heq =>
      rcases h with hlen | ⟨f, hf, hfi⟩
      · rw [heq] at hlen
        simp at hlen
      · rw [heq] at hf
        split at hpm
        case h_1 k p hka hkb =>
          simp only [List.mem_cons, List.mem_singleton, List.not_mem_nil] at hf
          rcases hf with rfl | rfl | hf
          · rw [hfi] at hka
            exact Option.noConfusion hka
          · rw [hfi] at hkb
            exact Option.noConfusion hkb
          · exact hf
        case h_2 => exact Option.noConfusion hpm
    case h_2 => exact Option.noConfusion hpm

/- ------------------------------------------------------------------ -/
/- Claim theorems.                                                     -/
/- ------------------------------------------------------------------ -/

/-- C1: for every key index whose calibration has a `shadow_function_key`
configured, the identity resolved at emission time is the shadow function
key if at least one `function_key_modifier` key is currently held, else
the scancode if the calibration has one, else the name. -/
theorem C1_shadow_resolution (st : State) (idx : Int) (cfg : KeyCfg) (sv : Value)
    (hk : keysGet st idx = some cfg)
    (hs : dictGet cfg ("shadow_function_key") = some sv) :
    getKey st idx =
      if anyModifierHeld st then some sv
      else
        match dictGet cfg ("scancode") with
        | some sc => some sc
        | none => dictGet cfg ("name") := by
  unfold getKey shouldUseFunctionKey shadowsFunctionKey
  rw [hk]
  simp [hs]

/-- C1 witness: with the modifier held, key 1 resolves per the rule
(to its shadow function key). -/
theorem C1_shadow_resolution_witness :
    getKey stHeld 1 =
      if anyModifierHeld stHeld then some (Value.str ("f2"))
      else
        match dictGet cfgShadow ("scancode") with
        | some sc => some sc
        | none => dictGet cfgShadow ("name") :=
  C1_shadow_resolution stHeld 1 cfgShadow (Value.str ("f2")) (by decide) (by decide)

/-- C3: a press or release for a key index with no calibration entry
returns immediately: no OS key event, no trace, no state change, and no
exception. -/
theorem C3_uncalibrated_index_ignored (st : State) (idx : Int) (d : Bool)
    (h : keysGet st idx = none) :
    pressKey st idx d = some (st, []) ∧ releaseKey st idx d = some (st, []) := by
  constructor
  · unfold pressKey
    rw [h]
  · unfold releaseKey
    rw [h]

/-- C3 witness: index 99 has no calibration entry in `stW` and is
silently ignored by both press and release. -/
theorem C3_uncalibrated_index_ignored_witness :
    pressKey stW 99 false = some (stW, []) ∧ releaseKey stW 99 false = some (stW, []) :=
  C3_uncalibrated_index_ignored stW 99 false (by decide)

/-- C4 counterexample: in dry-run mode, pressing or releasing the
modifier key 7 emits a trace and leaves the state — in particular its
`pressed` flag — unchanged, so a modifier press does not always have
setting the flag as its only effect. -/
theorem C4_counterexample :
    pressKey stW 7 true = some (stW, [Output.trace (("Pressing: ") ++ pyDictRepr cfgMod)])
  ∧ releaseKey stW 7 true = some (stW, [Output.trace (("Releasing: ") ++ pyDictRepr cfgMod)])
  ∧ isModCfg cfgMod = true
  ∧ pyTruthy (dictGet cfgMod ("pressed")) = false
  ∧ anyModifierHeld stW = false :=
  ⟨by decide, by decide, by decide, by decide, by decide⟩

/-- C4 amended: a `function_key_modifier` key never causes an OS
key-injection primitive in any mode; in non-dry-run mode its only effect
is to set its `pressed` flag on press and clear it on release, while in
dry-run mode it only emits a trace and leaves the flag unchanged. -/
theorem C4_modifier_flag_only (st : State) (idx : Int) (cfg : KeyCfg)
    (hk : keysGet st idx = some cfg) (hm : isModCfg cfg = true) :
    (∀ d res, pressKey st idx d = some res → ∀ o ∈ res.2, o.isOsAction = false)
  ∧ (∀ d res, releaseKey st idx d = some res → ∀ o ∈ res.2, o.isOsAction = false)
  ∧ pressKey st idx false
      = some (keysSet st idx (dictSet cfg ("pressed") (Value.bool true)), [])
  ∧ releaseKey st idx false
      = some (keysSet st idx (dictSet cfg ("pressed") (Value.bool false)), [])
  ∧ pressKey st idx true = some (st, [Output.trace (("Pressing: ") ++ pyDictRepr cfg)])
  ∧ releaseKey st idx true = some (st, [Output.trace (("Releasing: ") ++ pyDictRepr cfg)])
  ∧ dictGet (dictSet cfg ("pressed") (Value.bool true)) ("pressed")
      = some (Value.bool true)
  ∧ dictGet (dictSet cfg ("pressed") (Value.bool false)) ("pressed")
      = some (Value.bool false) := by
  have hpressT : pressKey st idx true
      = some (st, [Output.trace (("Pressing: ") ++ pyDictRepr cfg)]) := by
    simp [pressKey, hk]
  have hpressF : pressKey st idx false
      = some (keysSet st idx (dictSet cfg ("pressed") (Value.bool true)), []) := by
    simp [pressKey, hk, hm]
  have hrelT : releaseKey st idx true
      = some (st, [Output.trace (("Releasing: ") ++ pyDictRepr cfg)]) := by
    simp [releaseKey, hk]
  have hrelF : releaseKey st idx false
      = some (keysSet st idx (dictSet cfg ("pressed") (Value.bool false)), []) := by
    simp [releaseKey, hk, hm]
  refine ⟨?_, ?_, hpressF, hrelF, hpressT, hrelT,
    dictGet_dictSet_self cfg ("pressed") (Value.bool true),
    dictGet_dictSet_self cfg ("pressed") (Value.bool false)⟩
  · intro d res hres o ho
    cases d
    · rw [hpressF] at hres
      have h1 := Option.some.inj hres
      subst h1
      simp at ho
    · rw [hpressT] at hres
      have h1 := Option.some.inj hres
      subst h1
      simp at ho
      subst ho
      rfl
  · intro d res hres o ho
    cases d
    · rw [hrelF] at hres
      have h1 := Option.some.inj hres
      subst h1
      simp at ho
    · rw [hrelT] at hres
      have h1 := Option.some.inj hres
      subst h1
      simp at ho
      subst ho
      rfl

/-- C4 witness: the non-dry-run press and release of modifier key 7 only
move its `pressed` flag. -/
theorem C4_modifier_flag_only_witness :
    pressKey stW 7 false
      = some (keysSet stW 7 (dictSet cfgMod ("pressed") (Value.bool true)), [])
  ∧ releaseKey stW 7 false
      = some (keysSet stW 7 (dictSet cfgMod ("pressed") (Value.bool false)), []) :=
  ⟨(C4_modifier_flag_only stW 7 cfgMod (by decide) (by decide)).2.2.1,
   (C4_modifier_flag_only stW 7 cfgMod (by decide) (by decide)).2.2.2.1⟩

/-- C5 counterexample: the dry-run press trace for key 0 is exactly the
action label and the calibration record, and contains no digit at all —
in particular no triggering voltage (the event-mode press path carries no
voltage). -/
theorem C5_counterexample :
    pressKey [((0:Int), cfgA)] 0 true
      = some ([((0:Int), cfgA)],
          [Output.trace ("Pressing: \x7b\x27name\x27: \x27a\x27\x7d")])
  ∧ ("Pressing: \x7b\x27name\x27: \x27a\x27\x7d").data.all (fun c => !c.isDigit) = true := by
  decide

/-- C5 amended: in dry-run mode a press or release of a calibrated key
produces a trace record instead of an OS key event, and the trace
includes the key's full calibration record; no triggering voltage is
included (the event-mode path has none). -/
theorem C5_dry_run_trace (st : State) (idx : Int) (cfg : KeyCfg)
    (hk : keysGet st idx = some cfg) :
    pressKey st idx true = some (st, [Output.trace (("Pressing: ") ++ pyDictRepr cfg)])
  ∧ releaseKey st idx true = some (st, [Output.trace (("Releasing: ") ++ pyDictRepr cfg)]) := by
  constructor
  · unfold pressKey
    rw [hk]
    rfl
  · unfold releaseKey
    rw [hk]
    rfl

/-- C5 witness: dry-run press and release of key 0 trace its full
calibration record. -/
theorem C5_dry_run_trace_witness :
    pressKey stW 0 true = some (stW, [Output.trace (("Pressing: ") ++ pyDictRepr cfgA)])
  ∧ releaseKey stW 0 true = some (stW, [Output.trace (("Releasing: ") ++ pyDictRepr cfgA)]) :=
  C5_dry_run_trace stW 0 cfgA (by decide)

/-- C6 counterexample: a full press-then-release cycle of tap key 2
(`press_and_release` set) emits the atomic tap primitive twice — once per
transition — not exactly once. -/
theorem C6_counterexample :
    runLines stW false [("2,1"), ("2,0")]
      = some (stW, [Output.osPressAndRelease (Value.str ("esc")),
                    Output.osPressAndRelease (Value.str ("esc"))])
  ∧ [Output.osPressAndRelease (Value.str ("esc")),
     Output.osPressAndRelease (Value.str ("esc"))].length = 2 := by
  decide

/-- C6 amended: for a calibrated non-modifier key with a truthy
`press_and_release` flag, each of the press transition and the release
transition is separately emitted as one atomic tap action (and never as a
bare press or bare release), so a full cycle yields two taps. -/
theorem C6_tap_on_each_transition (st : State) (idx : Int) (cfg : KeyCfg) (key : Value)
    (hk : keysGet st idx = some cfg)
    (hm : isModCfg cfg = false)
    (hpr : pyTruthy (dictGet cfg ("press_and_release")) = true)
    (hkey : getKey st idx = some key) :
    pressKey st idx false = some (st, [Output.osPressAndRelease key])
  ∧ releaseKey st idx false = some (st, [Output.osPressAndRelease key]) := by
  have hsp : shouldPressAndRelease st idx = true := by
    unfold shouldPressAndRelease
    rw [hk]
    exact hpr
  constructor
  · unfold pressKey
    rw [hk]
    simp [hm, hkey, hsp]
  · unfold releaseKey
    rw [hk]
    simp [hm, hkey, hsp]

/-- C6 witness: tap key 2 emits one tap on press and one tap on
release. -/
theorem C6_tap_on_each_transition_witness :
    pressKey stW 2 false = some (stW, [Output.osPressAndRelease (Value.str ("esc"))])
  ∧ releaseKey stW 2 false = some (stW, [Output.osPressAndRelease (Value.str ("esc"))]) :=
  C6_tap_on_each_transition stW 2 cfgTap (Value.str ("esc"))
    (by decide) (by decide) (by decide) (by decide)

/-- C8: in event mode, every line that is not exactly two comma-separated
integers is silently discarded — the state is unchanged, nothing is
emitted, no exception escapes, and the loop continues with the next
line. -/
theorem C8_malformed_event_line_skipped (st : State) (d : Bool) (line : String)
    (h : (splitComma (pyStrip line.data)).length ≠ 2
       ∨ ∃ f ∈ splitComma (pyStrip line.data), pyInt f = none) :
    processLine st d line = some (st, [])
  ∧ ∀ rest, runLines st d (line :: rest) = runLines st d rest := by
  have hp : parseMessage line = none := parseMessage_eq_none line h
  constructor
  · unfold processLine
    rw [hp]
  · intro rest
    have hpl : processLine st d line = some (st, []) := by
      unfold processLine
      rw [hp]
    show (match processLine st d line with
      | none => none
      | some (st1, out1) =>
        match runLines st1 d rest with
        | none => none
        | some (st2, out2) => some (st2, out1 ++ out2)) = runLines st d rest
    rw [hpl]
    show (match runLines st d rest with
      | none => none
      | some (st2, out2) => some (st2, [] ++ out2)) = runLines st d rest
    cases hr : runLines st d rest with
    | none => rfl
    | some r =>
      cases r with
      | mk st2 out2 => simp

/-- C8 witness: the three-field line is discarded and the loop proceeds
to the next line. -/
theorem C8_malformed_event_line_skipped_witness :
    processLine stW false ("1,2,3") = some (stW, [])
  ∧ runLines stW false [("1,2,3"), ("2,1")] = runLines stW false [("2,1")] :=
  ⟨(C8_malformed_event_line_skipped stW false ("1,2,3") (Or.inl (by decide))).1,
   (C8_malformed_event_line_skipped stW false ("1,2,3") (Or.inl (by decide))).2 [("2,1")]⟩

set_option maxRecDepth 4000 in
/-- C2 counterexample: `line96` is a comma-separated list of exactly 96
integers (96 comma-split fields, each decoding as an integer), yet the
scan reader discards it — `split(b",")[:-1]` drops its last field,
leaving 95 — instead of yielding it. -/
theorem C2_counterexample :
    (splitComma line96.data).length = 96
  ∧ parseFields (splitComma line96.data) = some (List.replicate 96 ((0:Int)))
  ∧ readScanLine line96 = none :=
  ⟨by decide, by decide, by decide⟩

/-- C2 amended: a scan-mode line is parsed and yielded iff, after the
last comma-split field is dropped, exactly `NUM_KEYS` fields remain and
every one decodes as an integer (in practice: 96 integers each followed
by a comma); every other line — wrong field count after the drop, or a
non-numeric field — is silently discarded and the stream continues with
the next line. -/
theorem C2_scan_line_parsing :
    (∀ line vs, (scanFields line).length = NUM_KEYS →
        parseFields (scanFields line) = some vs →
        readScanLine line = some vs)
  ∧ (∀ line, (scanFields line).length ≠ NUM_KEYS → readScanLine line = none)
  ∧ (∀ line, parseFields (scanFields line) = none → readScanLine line = none)
  ∧ (∀ line rest, readScanLine line = none →
        keyscansOfLines (line :: rest) = keyscansOfLines rest)
  ∧ (∀ line vs rest, readScanLine line = some vs →
        keyscansOfLines (line :: rest) = vs :: keyscansOfLines rest) := by
  refine ⟨?_, ?_, ?_, ?_, ?_⟩
  · intro line vs h1 h2
    simp [readScanLine, h1, h2]
  · intro line h
    have hb : ((scanFields line).length != NUM_KEYS) = true := by
      simpa using h
    simp [readScanLine, hb]
  · intro line h
    by_cases hlen : (scanFields line).length = NUM_KEYS
    · simp [readScanLine, hlen, h]
    · have hb : ((scanFields line).length != NUM_KEYS) = true := by
        simpa using hlen
      simp [readScanLine, hb]
  · intro line rest h
    simp [keyscansOfLines, List.filterMap_cons, h]
  · intro line vs rest h
    simp [keyscansOfLines, List.filterMap_cons, h]

set_option maxRecDepth 4000 in
/-- C2 witness: the same 96 readings followed by the firmware's trailing
comma are parsed and yielded. -/
theorem C2_scan_line_parsing_witness :
    readScanLine line97 = some (List.replicate 96 ((0:Int))) :=
  C2_scan_line_parsing.1 line97 (List.replicate 96 ((0:Int))) (by decide) (by decide)

/-- A load step on an item whose field decodes as an integer never
raises. -/
theorem loadStep_ok_of_int (st : State) (f : String) (cfg : KeyCfg) (i : Int)
    (h : pyInt f.data = some i) :
    ∃ st', loadStep st (f, cfg) = Except.ok st' := by
  by_cases hc : isFunctionKeyModifier (keysSet st i cfg) i = true
  · refine ⟨keysSet (keysSet st i cfg) i (dictSet cfg ("pressed") (Value.bool false)), ?_⟩
    unfold loadStep
    rw [h]
    simp [hc]
  · refine ⟨keysSet st i cfg, ?_⟩
    unfold loadStep
    rw [h]
    simp [hc]

/-- If some calibration field does not decode as an integer, loading
raises `ValueError` no matter what precedes or follows it. -/
theorem load_error_of_bad_field (items : List (String × KeyCfg))
    (h : ∃ it ∈ items, pyInt it.1.data = none) :
    ∀ st, items.foldlM loadStep st = Except.error ("ValueError") := by
  induction items with
  | nil =>
    rcases h with ⟨it, hit, _⟩
    exact absurd hit (List.not_mem_nil it)
  | cons a l ih =>
    intro st
    show (loadStep st a >>= fun s => l.foldlM loadStep s) = Except.error ("ValueError")
    cases ha : pyInt a.1.data with
    | none =>
      have hstep : loadStep st a = Except.error ("ValueError") := by
        unfold loadStep
        rw [ha]
      rw [hstep]
      rfl
    | some i =>
      have h' : ∃ it ∈ l, pyInt it.1.data = none := by
        rcases h with ⟨it, hit, hnone⟩
        rcases List.mem_cons.mp hit with rfl | hl
        · rw [ha] at hnone
          exact Option.noConfusion hnone
        · exact ⟨it, hl, hnone⟩
      obtain ⟨st', hstep⟩ := loadStep_ok_of_int st a.1 a.2 i ha
      rw [show a = (a.1, a.2) from rfl] at hstep ⊢
      rw [hstep]
      show l.foldlM loadStep st' = Except.error ("ValueError")
      exact ih h' st'

/-- C7 counterexample: loading a calibration mapping containing the
literal key `"global"` raises `ValueError` — `int("global")` is not
parseable and the loader has no `GlobalConfig` handling at all. -/
theorem C7_counterexample :
    loadKeyCalibration [(("global"), ([] : KeyCfg))] = Except.error ("ValueError") := by
  rfl

/-- C7 amended: loading fails with `ValueError` whenever the mapping
contains the literal key `"global"` (wherever it occurs); there is no
GlobalConfig.  An entry whose key decodes as integer `i` populates the
per-key calibration at index `i` — modifier-typed entries additionally
get their `pressed` flag initialised to false.  (Loading is still
invoked exactly once by `main` before the run loop.) -/
theorem C7_load_calibration :
    (∀ pre post cfg,
        loadKeyCalibration (pre ++ (("global"), cfg) :: post) = Except.error ("ValueError"))
  ∧ (∀ f i cfg, pyInt f.data = some i → isModCfg cfg = false →
        loadKeyCalibration [(f, cfg)] = Except.ok ([(i, cfg)]))
  ∧ (∀ f i cfg, pyInt f.data = some i → isModCfg cfg = true →
        loadKeyCalibration [(f, cfg)]
          = Except.ok ([(i, dictSet cfg ("pressed") (Value.bool false))])) := by
  refine ⟨?_, ?_, ?_⟩
  · intro pre post cfg
    apply load_error_of_bad_field
    refine ⟨(("global"), cfg), by simp, ?_⟩
    show pyInt (("global" : String)).data = none
    decide
  · intro f i cfg hf hm
    have hmod : isFunctionKeyModifier ([(i, cfg)] : State) i = false := by
      simp [isFunctionKeyModifier, keysGet, hm]
    have hstep : loadStep ([] : State) (f, cfg) = Except.ok ([(i, cfg)]) := by
      unfold loadStep
      rw [hf]
      simp [keysSet, hmod]
    show (loadStep ([] : State) (f, cfg) >>= fun s => List.foldlM loadStep s []) = _
    rw [hstep]
    rfl
  · intro f i cfg hf hm
    have hmod : isFunctionKeyModifier ([(i, cfg)] : State) i = true := by
      simp [isFunctionKeyModifier, keysGet, hm]
    have hstep : loadStep ([] : State) (f, cfg)
        = Except.ok ([(i, dictSet cfg ("pressed") (Value.bool false))]) := by
      unfold loadStep
      rw [hf]
      simp [keysSet, hmod]
    show (loadStep ([] : State) (f, cfg) >>= fun s => List.foldlM loadStep s []) = _
    rw [hstep]
    rfl

/-- C7 witness: a modifier entry keyed `"7"` loads at index 7 with its
flag initialised, and a plain entry keyed `"0"` loads verbatim. -/
theorem C7_load_calibration_witness :
    loadKeyCalibration [(("0"), cfgA)] = Except.ok ([((0:Int), cfgA)])
  ∧ loadKeyCalibration
      [(("7"), [("name", Value.str ("fn")), ("type", Value.str ("function_key_modifier"))])]
      = Except.ok ([((7:Int),
          dictSet [("name", Value.str ("fn")), ("type", Value.str ("function_key_modifier"))]
            ("pressed") (Value.bool false))]) :=
  ⟨C7_load_calibration.2.1 ("0") 0 cfgA (by decide) (by decide),
   C7_load_calibration.2.2 ("7") 7
     [("name", Value.str ("fn")), ("type", Value.str ("function_key_modifier"))]
     (by decide) (by decide)⟩

/-- One debounce step keeps the confidence counter inside
`[0, maxConfidence]`. -/
theorem debounceStep_confidence_bounds (maxC : Int) (s : DebounceState) (r : Bool)
    (hmax : 0 ≤ maxC) (h0 : 0 ≤ s.confidence) (h1 : s.confidence ≤ maxC) :
    0 ≤ ((debounceStep maxC s r).1).confidence
  ∧ ((debounceStep maxC s r).1).confidence ≤ maxC := by
  unfold debounceStep
  cases hp : s.isPressed
  · cases r
    · exact ⟨h0, h1⟩
    · exact ⟨hmax, le_refl maxC⟩
  · cases r
    · dsimp only
      split <;> constructor <;> dsimp only <;> omega
    · constructor <;> dsimp only <;> omega

/-- C9: for every key and every finite sequence of electrical
pressed/not-pressed readings, the confidence counter of the debounce
filter (spec-modelled, see `debounceStep`) stays within
`[0, maxConfidence]` after every step — universality over all reading
sequences covers every prefix of a run, hence every step. -/
theorem C9_confidence_bounded (maxC : Int) (readings : List Bool) (hmax : 0 ≤ maxC) :
    0 ≤ (debounceRun maxC readings).confidence
  ∧ (debounceRun maxC readings).confidence ≤ maxC := by
  have key : ∀ (l : List Bool) (s : DebounceState),
      0 ≤ s.confidence → s.confidence ≤ maxC →
      0 ≤ (l.foldl (fun s r => (debounceStep maxC s r).1) s).confidence
    ∧ (l.foldl (fun s r => (debounceStep maxC s r).1) s).confidence ≤ maxC := by
    intro l
    induction l with
    | nil => intro s h0 h1; exact ⟨h0, h1⟩
    | cons r rs ih =>
      intro s h0 h1
      have hs := debounceStep_confidence_bounds maxC s r hmax h0 h1
      exact ih ((debounceStep maxC s r).1) hs.1 hs.2
  exact key readings debounceInit (le_refl 0) hmax

/-- C9 witness: a bounce-heavy sequence with the default depth 2 keeps
the counter in bounds. -/
theorem C9_confidence_bounded_witness :
    0 ≤ (debounceRun 2 [true, false, true, true, true, false, false, false]).confidence
  ∧ (debounceRun 2 [true, false, true, true, true, false, false, false]).confidence ≤ 2 :=
  C9_confidence_bounded 2 [true, false, true, true, true, false, false, false] (by decide)

/-- Dry-run press of a calibrated key: trace only, state untouched. -/
theorem pressKey_dry_trace (st : State) (idx : Int) (cfg : KeyCfg)
    (hk : keysGet st idx = some cfg) :
    pressKey st idx true = some (st, [Output.trace (("Pressing: ") ++ pyDictRepr cfg)]) := by
  unfold pressKey
  rw [hk]
  rfl

/-- Dry-run release of a calibrated key: trace only, state untouched. -/
theorem releaseKey_dry_trace (st : State) (idx : Int) (cfg : KeyCfg)
    (hk : keysGet st idx = some cfg) :
    releaseKey st idx true = some (st, [Output.trace (("Releasing: ") ++ pyDictRepr cfg)]) := by
  unfold releaseKey
  rw [hk]
  rfl

/-- A dry-run press never changes the state. -/
theorem pressKey_dry_state (st : State) (idx : Int) :
    ∃ outs, pressKey st idx true = some (st, outs) := by
  cases hk : keysGet st idx with
  | none =>
    refine ⟨[], ?_⟩
    unfold pressKey
    rw [hk]
  | some cfg => exact ⟨_, pressKey_dry_trace st idx cfg hk⟩

/-- A dry-run release never changes the state. -/
theorem releaseKey_dry_state (st : State) (idx : Int) :
    ∃ outs, releaseKey st idx true = some (st, outs) := by
  cases hk : keysGet st idx with
  | none =>
    refine ⟨[], ?_⟩
    unfold releaseKey
    rw [hk]
  | some cfg => exact ⟨_, releaseKey_dry_trace st idx cfg hk⟩

/-- One dry-run loop iteration never changes the state and never
raises. -/
theorem processLine_dry_state (st : State) (line : String) :
    ∃ outs, processLine st true line = some (st, outs) := by
  unfold processLine
  cases hp : parseMessage line with
  | none => exact ⟨[], rfl⟩
  | some kp =>
    obtain ⟨k, p⟩ := kp
    by_cases hb : (p != 0) = true
    · simpa [hb] using pressKey_dry_state st k
    · have hb' : (p != 0) = false := by
        simpa using hb
      simpa [hb'] using releaseKey_dry_state st k

/-- A dry-run run never changes the state and never raises. -/
theorem runLines_dry_state (lines : List String) :
    ∀ st : State, ∃ outs, runLines st true lines = some (st, outs) := by
  induction lines with
  | nil => intro st; exact ⟨[], rfl⟩
  | cons l ls ih =>
    intro st
    obtain ⟨o1, h1⟩ := processLine_dry_state st l
    obtain ⟨o2, h2⟩ := ih st
    refine ⟨o1 ++ o2, ?_⟩
    show (match processLine st true l with
      | none => none
      | some (st1, out1) =>
        match runLines st1 true ls with
        | none => none
        | some (st2, out2) => some (st2, out1 ++ out2)) = some (st, o1 ++ o2)
    rw [h1]
    show (match runLines st true ls with
      | none => none
      | some (st2, out2) => some (st2, o1 ++ out2)) = some (st, o1 ++ o2)
    rw [h2]

/-- Loading leaves every modifier-typed entry with its `pressed` flag
equal to false. -/
theorem load_modifiers_unpressed (items : List (String × KeyCfg)) :
    ∀ st st',
      (∀ p ∈ st, isModCfg p.2 = true → dictGet p.2 ("pressed") = some (Value.bool false)) →
      items.foldlM loadStep st = Except.ok st' →
      ∀ p ∈ st', isModCfg p.2 = true → dictGet p.2 ("pressed") = some (Value.bool false) := by
  induction items with
  | nil =>
    intro st st' hst hok
    have heq : st = st' := Except.ok.inj hok
    subst heq
    exact hst
  | cons a l ih =>
    intro st st' hst hok
    have hok' : (loadStep st a >>= fun s => l.foldlM loadStep s) = Except.ok st' := hok
    cases hstep : loadStep st a with
    | error e =>
      rw [hstep] at hok'
      exact Except.noConfusion hok'
    | ok st1 =>
      rw [hstep] at hok'
      refine ih st1 st' ?_ hok'
      unfold loadStep at hstep
      cases ha : pyInt a.1.data with
      | none =>
        rw [ha] at hstep
        exact Except.noConfusion hstep
      | some i =>
        rw [ha] at hstep
        by_cases hc : isFunctionKeyModifier (keysSet st i a.2) i = true
        · simp only [hc, if_true] at hstep
          have heq := Except.ok.inj hstep
          subst heq
          intro p hp hmod
          rcases mem_keysSet _ _ _ p hp with ⟨hpin, hne⟩ | rfl
          · rcases mem_keysSet _ _ _ p hpin with ⟨hpin2, _⟩ | rfl
            · exact hst p hpin2 hmod
            · simp at hne
          · exact dictGet_dictSet_self a.2 ("pressed") (Value.bool false)
        · simp only [hc, if_false] at hstep
          have hc' : isModCfg a.2 = false := by
            have hself := keysGet_keysSet_self st i a.2
            unfold isFunctionKeyModifier at hc
            rw [hself] at hc
            simpa using hc
          have heq := Except.ok.inj hstep
          subst heq
          intro p hp hmod
          rcases mem_keysSet st i a.2 p hp with ⟨hpin, _⟩ | rfl
          · exact hst p hpin hmod
          · rw [hmod] at hc'
            exact Bool.noConfusion hc'

/-- If no modifier-typed entry has a truthy `pressed` flag, no modifier
is held. -/
theorem anyModifierHeld_eq_false (st : State)
    (hinv : ∀ p ∈ st, isModCfg p.2 = true → dictGet p.2 ("pressed") = some (Value.bool false)) :
    anyModifierHeld st = false := by
  by_contra hc
  rw [Bool.not_eq_false] at hc
  rcases List.any_eq_true.mp hc with ⟨p, hp, hpred⟩
  have hpred' : isModCfg p.2 = true ∧ pyTruthy (dictGet p.2 ("pressed")) = true := by
    simpa using hpred
  rw [hinv p hp hpred'.1] at hpred'
  exact Bool.noConfusion hpred'.2

/-- C10: in dry-run mode, pressing or releasing any calibrated key — in
particular a `function_key_modifier` key — produces only a trace record
and never touches the state, so starting from a loaded calibration every
modifier-typed entry's `pressed` flag is false, stays false through any
dry-run run, no modifier is ever held, and `should_use_function_key`
never selects a `shadow_function_key` identity. -/
theorem C10_dry_run_never_shadows (items : List (String × KeyCfg)) (st0 : State)
    (hload : loadKeyCalibration items = Except.ok st0) :
    (∀ idx cfg, keysGet st0 idx = some cfg →
        pressKey st0 idx true = some (st0, [Output.trace (("Pressing: ") ++ pyDictRepr cfg)])
      ∧ releaseKey st0 idx true
          = some (st0, [Output.trace (("Releasing: ") ++ pyDictRepr cfg)]))
  ∧ (∀ p ∈ st0, isModCfg p.2 = true → dictGet p.2 ("pressed") = some (Value.bool false))
  ∧ anyModifierHeld st0 = false
  ∧ (∀ idx, shouldUseFunctionKey st0 idx = false)
  ∧ (∀ lines, ∃ outs, runLines st0 true lines = some (st0, outs)) := by
  have hinv : ∀ p ∈ st0, isModCfg p.2 = true →
      dictGet p.2 ("pressed") = some (Value.bool false) := by
    refine load_modifiers_unpressed items [] st0 ?_ hload
    intro p hp
    exact absurd hp (List.not_mem_nil p)
  have hany : anyModifierHeld st0 = false := anyModifierHeld_eq_false st0 hinv
  refine ⟨?_, hinv, hany, ?_, ?_⟩
  · intro idx cfg hk
    exact ⟨pressKey_dry_trace st0 idx cfg hk, releaseKey_dry_trace st0 idx cfg hk⟩
  · intro idx
    unfold shouldUseFunctionKey
    rw [hany]
    exact Bool.and_false _
  · intro lines
    exact runLines_dry_state lines st0

/-- C10 witness: loading `itemsW` gives `stLoaded`; no modifier is held,
key 0 never resolves to a shadow identity, and a dry-run run over
modifier and letter presses leaves the state fixed. -/
theorem C10_dry_run_never_shadows_witness :
    anyModifierHeld stLoaded = false
  ∧ shouldUseFunctionKey stLoaded 0 = false
  ∧ (∃ outs, runLines stLoaded true [("7,1"), ("0,1"), ("0,0"), ("7,0")]
      = some (stLoaded, outs)) :=
  ⟨(C10_dry_run_never_shadows itemsW stLoaded (by rfl)).2.2.1,
   (C10_dry_run_never_shadows itemsW stLoaded (by rfl)).2.2.2.1 0,
   (C10_dry_run_never_shadows itemsW stLoaded (by rfl)).2.2.2.2
     [("7,1"), ("0,1"), ("0,0"), ("7,0")]⟩

end Displaywriter
